import Mathlib

/-!
Verification of the UCNK KonText deployment script (deploy.py).

The definitions below are a shallow embedding of the parts of deploy.py that
the verified properties talk about: configuration validation, archive
creation and resolution, the deployment step sequence, and the top level
dispatch and error handling of the script.  Filesystem state is made
explicit (lists of directory entries, association lists for file contents),
and every Python exception that the script can raise is a constructor of
the error type.
-/

namespace DeployModel

/-- A filesystem path, as the list of its characters (Python manipulates
paths as plain strings; character lists make the string splitting done by
the forbidden-directory check directly computable). -/
abbrev Path := List Char

/-- The three distinct ConfigError format strings used in
Configuration.init: one per failing branch of the per-key validation.
forbiddenValue renders as "key cannot be set to forbidden value p",
mustBeAbsolute as "key path must be absolute" and doesNotExist as
"Path p (key) does not exist." -/
inductive ConfigErrorKind where
  | forbiddenValue (key : String) (p : Path)
  | mustBeAbsolute (key : String)
  | doesNotExist (key : String) (p : Path)
  deriving DecidableEq

/-- The exceptions raised by deploy.py, one constructor per Python
exception class that can reach the top level handler: ConfigError,
ShellCommandError, InputError, InvalidatedArchiveException, plus the
builtin AttributeError (os.path.join applied to None under Python 2),
OSError (os.makedirs on an existing directory) and IOError (open on a
missing file). -/
inductive PyError where
  | configError (kind : ConfigErrorKind)
  | shellCommandError (msg : String)
  | inputError (msg : String)
  | invalidatedArchive (msg : String)
  | attributeError (msg : String)
  | osError (p : String)
  | ioError (p : String)
  deriving DecidableEq

/-- The error message of the ambiguity failure in find_matching_archive. -/
def ambiguousMsg : String :=
  "Ambiguous archive ID search. Please specify a more concrete value."

/-- Python str.startswith restricted to whole-string prefixes, the only
form deploy.py uses: true iff the characters of pre are an initial segment
of the characters of s. -/
def py_startswith (pre s : String) : Bool :=
  pre.data.isPrefixOf s.data

/-- The loop body of find_matching_archive: walk the listed archives with
the accumulator ans, recording the first name that starts with the
requested id and raising InputError on a second one. -/
def find_matching_go (archId : String) : List String → Option String →
    Except PyError (Option String)
  | [], ans => .ok ans
  | item :: rest, ans =>
    if py_startswith archId item then
      match ans with
      | none => find_matching_go archId rest (some item)
      | some _ => .error (.inputError ambiguousMsg)
    else
      find_matching_go archId rest ans

/-- find_matching_archive from deploy.py: availArchives is the result of
os.listdir on the archive root; returns the unique archive whose name
starts with archId, none when nothing matches, and InputError when the
match is ambiguous. -/
def find_matching_archive (availArchives : List String) (archId : String) :
    Except PyError (Option String) :=
  find_matching_go archId availArchives none

theorem find_matching_go_no_match (archId : String) :
    ∀ (l : List String) (ans : Option String),
      (∀ a ∈ l, py_startswith archId a = false) →
      find_matching_go archId l ans = .ok ans := by
  intro l
  induction l with
  | nil => intro ans _; rfl
  | cons a rest ih =>
    intro ans hl
    have ha : py_startswith archId a = false := hl a (by simp)
    simp only [find_matching_go, ha, Bool.false_eq_true, if_false]
    exact ih ans (fun x hx => hl x (by simp [hx]))

theorem find_matching_go_extra_match (archId : String) :
    ∀ (l : List String) (y : String),
      (∃ a ∈ l, py_startswith archId a = true) →
      find_matching_go archId l (some y) = .error (.inputError ambiguousMsg) := by
  intro l
  induction l with
  | nil => intro y h; simp at h
  | cons a rest ih =>
    intro y h
    by_cases ha : py_startswith archId a = true
    · simp [find_matching_go, ha]
    · have hrest : ∃ x ∈ rest, py_startswith archId x = true := by
        rcases h with ⟨x, hx, hpx⟩
        rcases List.mem_cons.mp hx with rfl | hx'
        · exact absurd hpx ha
        · exact ⟨x, hx', hpx⟩
      simp only [find_matching_go, ha, if_false]
      exact ih y hrest

/-- C5: find_matching_archive returns none when zero archive names start
with the requested id, returns the unique matching name when exactly one
does, and raises InputError when two or more do. -/
theorem find_matching_archive_trichotomy (archives : List String) (archId : String) :
    (archives.filter (fun a => py_startswith archId a) = [] →
      find_matching_archive archives archId = .ok none) ∧
    (∀ m, archives.filter (fun a => py_startswith archId a) = [m] →
      find_matching_archive archives archId = .ok (some m)) ∧
    (2 ≤ (archives.filter (fun a => py_startswith archId a)).length →
      find_matching_archive archives archId = .error (.inputError ambiguousMsg)) := by
  induction archives with
  | nil =>
    refine ⟨fun _ => rfl, fun m hm => by simp at hm, fun h => by simp at h⟩
  | cons a rest ih =>
    by_cases ha : py_startswith archId a = true
    · have hfil : (a :: rest).filter (fun x => py_startswith archId x) =
          a :: rest.filter (fun x => py_startswith archId x) := by
        simp [List.filter_cons, ha]
      have hgo : find_matching_archive (a :: rest) archId =
          find_matching_go archId rest (some a) := by
        simp [find_matching_archive, find_matching_go, ha]
      refine ⟨?_, ?_, ?_⟩
      · intro h0; rw [hfil] at h0; simp at h0
      · intro m hm
        rw [hfil] at hm
        have hma : a = m := (List.cons_eq_cons.mp hm).1
        have hrest0 : rest.filter (fun x => py_startswith archId x) = [] :=
          (List.cons_eq_cons.mp hm).2
        have hnone : ∀ x ∈ rest, py_startswith archId x = false := by
          intro x hx
          by_contra hcon
          have hx' : x ∈ rest.filter (fun y => py_startswith archId y) :=
            List.mem_filter.mpr ⟨hx, by simpa using hcon⟩
          rw [hrest0] at hx'
          simp at hx'
        rw [hgo, find_matching_go_no_match archId rest (some a) hnone, hma]
      · intro h2
        rw [hfil] at h2
        have hlen : 1 ≤ (rest.filter (fun x => py_startswith archId x)).length := by
          simpa using h2
        have hne : rest.filter (fun x => py_startswith archId x) ≠ [] := by
          intro h0; rw [h0] at hlen; simp at hlen
        rcases List.exists_mem_of_ne_nil _ hne with ⟨x, hx⟩
        have hx' := List.mem_filter.mp hx
        rw [hgo]
        exact find_matching_go_extra_match archId rest a ⟨x, hx'.1, by simpa using hx'.2⟩
    · have ha' : py_startswith archId a = false := by simpa using ha
      have hfil : (a :: rest).filter (fun x => py_startswith archId x) =
          rest.filter (fun x => py_startswith archId x) := by
        simp [List.filter_cons, ha']
      have hgo : find_matching_archive (a :: rest) archId =
          find_matching_archive rest archId := by
        simp [find_matching_archive, find_matching_go, ha']
      refine ⟨?_, ?_, ?_⟩
      · intro h0; rw [hfil] at h0; rw [hgo]; exact ih.1 h0
      · intro m hm; rw [hfil] at hm; rw [hgo]; exact ih.2.1 m hm
      · intro h2; rw [hfil] at h2; rw [hgo]; exact ih.2.2 h2

/-- Concrete instances of the three branches of
find_matching_archive_trichotomy, including the ambiguity example of the
specification with two archives sharing the day part of their names. -/
theorem find_matching_archive_trichotomy_witness :
    find_matching_archive [] "x" = .ok none ∧
    find_matching_archive ["2020-01-01-00-00-00"] "2020" =
      .ok (some "2020-01-01-00-00-00") ∧
    find_matching_archive ["2020-01-01-00-00-00", "2020-01-01-00-00-01"] "2020-01-01" =
      .error (.inputError ambiguousMsg) :=
  ⟨(find_matching_archive_trichotomy [] "x").1 (by decide),
    (find_matching_archive_trichotomy ["2020-01-01-00-00-00"] "2020").2.1
      "2020-01-01-00-00-00" (by decide),
    (find_matching_archive_trichotomy
      ["2020-01-01-00-00-00", "2020-01-01-00-00-01"] "2020-01-01").2.2 (by decide)⟩

/-- The side-effecting methods invoked by Deployer.run_all, in source
order; each one raises on failure, aborting the remainder of run_all. -/
inductive Step where
  | updateFromRepository
  | updateWorkingConf
  | buildProject
  | createArchive
  | copyConfiguration
  | recordDeploymentInfo
  | copyAppToArchive
  | removeCurrentDeployment
  | deployNewVersion
  deriving DecidableEq

/-- The statement order of Deployer.run_all. -/
def deploySteps : List Step :=
  [.updateFromRepository, .updateWorkingConf, .buildProject, .createArchive,
    .copyConfiguration, .recordDeploymentInfo, .copyAppToArchive,
    .removeCurrentDeployment, .deployNewVersion]

/-- The steps of run_all that precede the destructive clearing of the live
application directory. -/
def priorSteps : List Step :=
  [.updateFromRepository, .updateWorkingConf, .buildProject, .createArchive,
    .copyConfiguration, .recordDeploymentInfo, .copyAppToArchive]

/-- Straight-line execution of a statement sequence under an outcome
oracle ok: a step is attempted when control reaches it; a failing step
(ok s = false) raises, so no later step is attempted.  The returned list
is the attempted steps in order. -/
def runSeq (ok : Step → Bool) : List Step → List Step
  | [] => []
  | s :: rest => if ok s then s :: runSeq ok rest else [s]

/-- The steps attempted by one call of Deployer.run_all, given the
success or failure of each step. -/
def run_all_trace (ok : Step → Bool) : List Step :=
  runSeq ok deploySteps

/-- C1: run_all reaches the destructive clearing of the live application
directory only when source sync, working-config refresh, build, archive
creation, config copy, provenance recording and build-output copy have
all succeeded; when any of those prior steps fails the live directory is
never cleared. -/
theorem clear_reached_iff_priors_ok (ok : Step → Bool) :
    (Step.removeCurrentDeployment ∈ run_all_trace ok ↔
      ∀ s ∈ priorSteps, ok s = true) ∧
    ((∃ s ∈ priorSteps, ok s = false) →
      Step.removeCurrentDeployment ∉ run_all_trace ok) := by
  have main : Step.removeCurrentDeployment ∈ run_all_trace ok ↔
      ∀ s ∈ priorSteps, ok s = true := by
    simp only [run_all_trace, deploySteps, priorSteps, runSeq]
    split_ifs with h1 h2 h3 h4 h5 h6 h7 h8 <;> simp_all
  refine ⟨main, ?_⟩
  rintro ⟨s, hs, hfalse⟩ hmem
  have := main.mp hmem s hs
  rw [this] at hfalse
  exact absurd hfalse (by simp)

/-- A run whose build step fails never clears the live directory. -/
theorem clear_reached_iff_priors_ok_witness :
    Step.removeCurrentDeployment ∉
      run_all_trace (fun s => !(s == Step.buildProject)) :=
  (clear_reached_iff_priors_ok (fun s => !(s == Step.buildProject))).2
    ⟨Step.buildProject, by decide, by decide⟩

/-- The names copied to each archive and, on deployment, into the live
application directory (the FILES constant of deploy.py). -/
def FILES : List String :=
  ["cmpltmpl", "lib", "locale", "public", "scripts", "package.json", "worker.py"]

/-- The provenance file name (DEPLOY_MESSAGE_FILE in deploy.py). -/
def deployMessageFile : String := ".deploy_info"

/-- True iff the shell glob star used by the first rm command of
remove_current_deployment matches the entry: star does not match names
starting with a dot. -/
def glob_star_matches (n : String) : Bool :=
  match n.data with
  | [] => false
  | c :: _ => !(c == '.')

/-- True iff the entry name starts with a dot. -/
def starts_with_dot (n : String) : Bool :=
  match n.data with
  | [] => false
  | c :: _ => c == '.'

/-- True iff the glob .[a-z]* of the second rm command of
remove_current_deployment matches the entry: a dot followed by a
lowercase ASCII letter followed by anything. -/
def glob_dot_lower_matches (n : String) : Bool :=
  match n.data with
  | c :: c2 :: _ => c == '.' && (decide ('a' ≤ c2) && decide (c2 ≤ 'z'))
  | _ => false

/-- Deployer.remove_current_deployment: two shell commands, rm -rf on the
glob star under appDir and rm -rf on the glob .[a-z]* under appDir; the
entries surviving both removals. -/
def remove_current_deployment_result (entries : List String) : List String :=
  (entries.filter (fun n => !glob_star_matches n)).filter
    (fun n => !glob_dot_lower_matches n)

/-- C6 counterexample: a dotfile whose second character is an uppercase
letter is matched by neither rm glob, so the live directory is not empty
after the clear step. -/
theorem remove_current_deployment_misses_upper_dotfile :
    remove_current_deployment_result [".Foo"] ≠ ([] : List String) := by
  decide

/-- C6 as amended: after remove_current_deployment the surviving entries
are exactly the dotfile entries whose second character is not a lowercase
ASCII letter (the two globs are star, which skips dotfiles, and .[a-z]*,
which only covers lowercase second characters). -/
theorem remove_current_deployment_survivors (entries : List String)
    (h : ∀ n ∈ entries, n ≠ "") :
    remove_current_deployment_result entries =
      entries.filter (fun n => starts_with_dot n && !glob_dot_lower_matches n) := by
  unfold remove_current_deployment_result
  rw [List.filter_filter]
  refine List.filter_congr ?_
  intro n hn
  have hn' : n ≠ "" := h n hn
  have hdata : n.data ≠ [] := by
    intro hnil
    apply hn'
    cases n with
    | mk d => simp only at hnil; rw [hnil]
  cases hd : n.data with
  | nil => exact absurd hd hdata
  | cons c t =>
    simp [glob_star_matches, starts_with_dot, hd, Bool.and_comm]

/-- Concrete run of the amended clear-step characterization: of a git
metadata dotfile, a regular file and an uppercase dotfile, exactly the
uppercase dotfile survives. -/
theorem remove_current_deployment_survivors_witness :
    remove_current_deployment_result [".git", "package.json", ".Foo"] =
      List.filter (fun n => starts_with_dot n && !glob_dot_lower_matches n)
        [".git", "package.json", ".Foo"] :=
  remove_current_deployment_survivors [".git", "package.json", ".Foo"] (by decide)

/-- The filesystem state the deploy action reads and writes: the names
listed under the archive root, the entries inside each archive directory,
the contents of each .invalid marker, the contents of each .deploy_info
file, and the entries of the live application directory. -/
structure DeployFS where
  archives : List String
  archiveFiles : List (String × List String)
  invalidMarkers : List (String × String)
  deployInfo : List (String × String)
  appDirEntries : List String
  deriving DecidableEq

/-- Outcome of one CLI action: normal return or an uncaught exception. -/
inductive Outcome where
  | success
  | failure (e : PyError)
  deriving DecidableEq

/-- The AttributeError message produced by Python 2 os.path.join when its
second component is None. -/
def noneJoinMsg : String := "NoneType object has no attribute startswith"

/-- _test_archive_validity from deploy.py.  The function joins the archive
root, the archive id and the marker name: when the id is None (no archive
matched), os.path.join itself raises AttributeError under Python 2; when
the marker file exists, the function raises InvalidatedArchiveException
carrying the marker contents. -/
def test_archive_validity (fs : DeployFS) (archiveId : Option String) :
    Except PyError Unit :=
  match archiveId with
  | none => .error (.attributeError noneJoinMsg)
  | some aid =>
    match fs.invalidMarkers.lookup aid with
    | some contents =>
      .error (.invalidatedArchive ("Archive marked as invalid. Reason: " ++ contents))
    | none => .ok ()

/-- The items Deployer.deploy_new_version copies from an archive into the
live directory: FILES plus the provenance file plus the conf directory. -/
def deployItems : List String := FILES ++ [deployMessageFile, "conf"]

/-- The cp loop of Deployer.deploy_new_version: copy each item in turn
into the live directory, aborting with ShellCommandError at the first
item missing from the archive (cp exits nonzero). -/
def install_from_archive (archEntries : List String) :
    List String → DeployFS → DeployFS × Outcome
  | [], fs => (fs, .success)
  | item :: rest, fs =>
    if archEntries.contains item then
      install_from_archive archEntries rest
        { fs with appDirEntries := fs.appDirEntries ++ [item] }
    else
      (fs, .failure (.shellCommandError ("Failed to process action: cp -r -p " ++ item)))

/-- Deployer.from_archive: clear the live directory, copy the archive
payload into it, then print the provenance record (open raises IOError
when the archive has no .deploy_info). -/
def from_archive (fs : DeployFS) (aid : String) : DeployFS × Outcome :=
  let fs1 : DeployFS :=
    { fs with appDirEntries := remove_current_deployment_result fs.appDirEntries }
  match install_from_archive ((fs.archiveFiles.lookup aid).getD []) deployItems fs1 with
  | (fs2, .failure e) => (fs2, .failure e)
  | (fs2, .success) =>
    match fs2.deployInfo.lookup aid with
    | some _ => (fs2, .success)
    | none => (fs2, .failure (.ioError (aid ++ "/" ++ deployMessageFile)))

/-- The deploy branch of the main block for an archive id other than the
literal new: resolve the id, test validity, then redeploy.  In the source
the final else arm only constructs an InputError without raising it, so
that arm returns normally with the state unchanged. -/
def deploy_archive_action (fs : DeployFS) (archId : String) : DeployFS × Outcome :=
  match find_matching_archive fs.archives archId with
  | .error e => (fs, .failure e)
  | .ok m =>
    match test_archive_validity fs m with
    | .error e => (fs, .failure e)
    | .ok _ =>
      match m with
      | some mm => from_archive fs mm
      | none => (fs, .success)

/-- C2: deploying from an archive that carries an invalidation marker
fails with InvalidatedArchiveException carrying the recorded reason
verbatim, and the filesystem (in particular the live application
directory) is left unchanged: the validity check precedes the clear
step. -/
theorem invalidated_archive_blocks_deploy (fs : DeployFS) (archId aid c : String)
    (h1 : find_matching_archive fs.archives archId = .ok (some aid))
    (h2 : fs.invalidMarkers.lookup aid = some c) :
    deploy_archive_action fs archId =
      (fs, .failure (.invalidatedArchive ("Archive marked as invalid. Reason: " ++ c))) := by
  simp [deploy_archive_action, h1, test_archive_validity, h2]

/-- Concrete run of the invalidated-archive refusal: one archive with an
invalidation marker, a populated live directory, a prefix resolving to
that archive; the attempt fails with the recorded reason and the live
directory still holds its original entries. -/
theorem invalidated_archive_blocks_deploy_witness :
    deploy_archive_action
      ⟨["2020-01-01-00-00-00"], [("2020-01-01-00-00-00", ["lib", "conf"])],
        [("2020-01-01-00-00-00", "bad build\n")], [], ["lib", "old.txt"]⟩ "2020" =
      (⟨["2020-01-01-00-00-00"], [("2020-01-01-00-00-00", ["lib", "conf"])],
        [("2020-01-01-00-00-00", "bad build\n")], [], ["lib", "old.txt"]⟩,
        .failure (.invalidatedArchive
          ("Archive marked as invalid. Reason: " ++ "bad build\n"))) :=
  invalidated_archive_blocks_deploy _ "2020" "2020-01-01-00-00-00" "bad build\n"
    (by rfl) (by rfl)

/-- C10: when the supplied id matches no archive, the deploy action ends
with the AttributeError raised by the validity check applied to the None
result, never with the (constructed but unraised) InputError, and the
filesystem, in particular the live application directory, is untouched. -/
theorem zero_match_fails_in_validity_check (fs : DeployFS) (archId : String)
    (h : find_matching_archive fs.archives archId = .ok none) :
    deploy_archive_action fs archId = (fs, .failure (.attributeError noneJoinMsg)) ∧
    ∀ m, (deploy_archive_action fs archId).2 ≠ .failure (.inputError m) := by
  have hmain : deploy_archive_action fs archId =
      (fs, .failure (.attributeError noneJoinMsg)) := by
    simp [deploy_archive_action, h, test_archive_validity]
  exact ⟨hmain, fun m => by rw [hmain]; simp⟩

/-- Concrete run of the zero-match case: one archive not matching the
requested id; the action fails with AttributeError and the state is
unchanged. -/
theorem zero_match_fails_in_validity_check_witness :
    deploy_archive_action
      ⟨["2020-01-01-00-00-00"], [], [], [], ["lib"]⟩ "2021" =
      (⟨["2020-01-01-00-00-00"], [], [], [], ["lib"]⟩,
        .failure (.attributeError noneJoinMsg)) :=
  (zero_match_fails_in_validity_check
    ⟨["2020-01-01-00-00-00"], [], [], [], ["lib"]⟩ "2021" (by rfl)).1

/-- The argument of datetime.strftime in deploy.py. -/
structure PyDatetime where
  year : Nat
  month : Nat
  day : Nat
  hour : Nat
  minute : Nat
  second : Nat
  deriving DecidableEq

/-- Zero padding of a decimal number to a field width, as strftime does. -/
def zero_pad (width : Nat) (n : Nat) : String :=
  let s := toString n
  String.mk (List.replicate (width - s.length) '0') ++ s

/-- strftime with the DEFAULT_DATETIME_FORMAT of deploy.py,
percent-Y-m-d-H-M-S with dashes: the archive naming scheme. -/
def strftime_default (d : PyDatetime) : String :=
  zero_pad 4 d.year ++ "-" ++ zero_pad 2 d.month ++ "-" ++ zero_pad 2 d.day ++ "-" ++
    zero_pad 2 d.hour ++ "-" ++ zero_pad 2 d.minute ++ "-" ++ zero_pad 2 d.second

/-- The set of existing directories, for the archive-creation model. -/
structure DirFS where
  dirs : List String
  deriving DecidableEq

/-- os.makedirs on its leaf directory: raises OSError when the directory
already exists, otherwise records it (intermediate directories are not
tracked; the archive root is assumed to exist, as Configuration has
already validated it). -/
def os_makedirs (fs : DirFS) (p : String) : Except PyError DirFS :=
  if p ∈ fs.dirs then .error (.osError p) else .ok ⟨p :: fs.dirs⟩

/-- Deployer.create_archive: build the archive path from the timestamp,
create the archive directory only when it is absent, then unconditionally
create its conf subdirectory, and return the archive path. -/
def create_archive (fs : DirFS) (archiveDir : String) (date : PyDatetime) :
    Except PyError (DirFS × String) :=
  match (if (archiveDir ++ "/" ++ strftime_default date) ∈ fs.dirs then
      Except.ok fs
    else
      os_makedirs fs (archiveDir ++ "/" ++ strftime_default date)) with
  | .error e => .error e
  | .ok fs1 =>
    match os_makedirs fs1 (archiveDir ++ "/" ++ strftime_default date ++ "/conf") with
    | .error e => .error e
    | .ok fs2 => .ok (fs2, archiveDir ++ "/" ++ strftime_default date)

/-- C4 counterexample: after a fully successful create_archive, repeating
the call with the exact same timestamp does not succeed; the unconditional
creation of the conf subdirectory raises OSError. -/
theorem create_archive_second_call_fails_cx :
    Except.bind (create_archive ⟨["/arch"]⟩ "/arch" ⟨2001, 9, 20, 12, 30, 41⟩)
        (fun r => create_archive r.1 "/arch" ⟨2001, 9, 20, 12, 30, 41⟩) =
      .error (.osError "/arch/2001-09-20-12-30-41/conf") := by
  rfl

/-- C4 as amended: when the conf subdirectory of the target archive does
not yet exist, create_archive succeeds, tolerates a pre-existing archive
directory, returns the deterministic timestamp-named path and creates
both directories; but a second call with the exact same timestamp then
fails with OSError on the conf subdirectory, so the operation is not
idempotent after a fully successful run. -/
theorem create_archive_retry (fs : DirFS) (archiveDir : String) (d : PyDatetime)
    (h : (archiveDir ++ "/" ++ strftime_default d ++ "/conf") ∉ fs.dirs) :
    ∃ fs2,
      create_archive fs archiveDir d =
        .ok (fs2, archiveDir ++ "/" ++ strftime_default d) ∧
      (archiveDir ++ "/" ++ strftime_default d) ∈ fs2.dirs ∧
      (archiveDir ++ "/" ++ strftime_default d ++ "/conf") ∈ fs2.dirs ∧
      create_archive fs2 archiveDir d =
        .error (.osError (archiveDir ++ "/" ++ strftime_default d ++ "/conf")) := by
  have hne : archiveDir ++ "/" ++ strftime_default d ++ "/conf" ≠
      archiveDir ++ "/" ++ strftime_default d := by
    intro hEq
    have hlen := congrArg String.length hEq
    have h5 : ("/conf" : String).length = 5 := rfl
    simp only [String.length_append, h5] at hlen
    omega
  by_cases hA : (archiveDir ++ "/" ++ strftime_default d) ∈ fs.dirs
  · refine ⟨⟨(archiveDir ++ "/" ++ strftime_default d ++ "/conf") :: fs.dirs⟩, ?_, ?_, ?_, ?_⟩
    · simp [create_archive, os_makedirs, hA, h]
    · exact List.mem_cons_of_mem _ hA
    · exact List.mem_cons_self _ _
    · simp [create_archive, os_makedirs, List.mem_cons, hA]
  · refine ⟨⟨(archiveDir ++ "/" ++ strftime_default d ++ "/conf") ::
      (archiveDir ++ "/" ++ strftime_default d) :: fs.dirs⟩, ?_, ?_, ?_, ?_⟩
    · simp [create_archive, os_makedirs, hA, h, List.mem_cons, hne]
    · exact List.mem_cons_of_mem _ (List.mem_cons_self _ _)
    · exact List.mem_cons_self _ _
    · simp [create_archive, os_makedirs, List.mem_cons]

/-- Concrete instance of the retry behavior at the timestamp used by the
repository test suite. -/
theorem create_archive_retry_witness :
    ∃ fs2,
      create_archive ⟨["/arch"]⟩ "/arch" ⟨2001, 9, 20, 12, 30, 41⟩ =
        .ok (fs2, "/arch" ++ "/" ++ strftime_default ⟨2001, 9, 20, 12, 30, 41⟩) ∧
      ("/arch" ++ "/" ++ strftime_default ⟨2001, 9, 20, 12, 30, 41⟩) ∈ fs2.dirs ∧
      ("/arch" ++ "/" ++ strftime_default ⟨2001, 9, 20, 12, 30, 41⟩ ++ "/conf") ∈ fs2.dirs ∧
      create_archive fs2 "/arch" ⟨2001, 9, 20, 12, 30, 41⟩ =
        .error (.osError ("/arch" ++ "/" ++ strftime_default ⟨2001, 9, 20, 12, 30, 41⟩ ++ "/conf")) :=
  create_archive_retry ⟨["/arch"]⟩ "/arch" ⟨2001, 9, 20, 12, 30, 41⟩ (by decide)

/-- Python str.split on the slash character: the exact splitting done by
Configuration._is_forbidden_dir; an empty input yields one empty field and
every slash starts a new field. -/
def splitSlash : Path → List Path
  | [] => [[]]
  | c :: rest =>
    if c = '/' then [] :: splitSlash rest
    else
      match splitSlash rest with
      | [] => [[c]]
      | s :: ss => (c :: s) :: ss

theorem splitSlash_ne_nil (p : Path) : splitSlash p ≠ [] := by
  induction p with
  | nil => simp [splitSlash]
  | cons c rest ih =>
    by_cases hc : c = '/'
    · simp [splitSlash, hc]
    · cases hsr : splitSlash rest with
      | nil => exact absurd hsr ih
      | cons t ts => simp [splitSlash, hc, hsr]

theorem length_splitSlash (p : Path) :
    (splitSlash p).length = p.count '/' + 1 := by
  induction p with
  | nil => rfl
  | cons c rest ih =>
    by_cases hc : c = '/'
    · simp [splitSlash, hc, List.count_cons, ih]
    · cases hsr : splitSlash rest with
      | nil => exact absurd hsr (splitSlash_ne_nil rest)
      | cons t ts =>
        rw [hsr] at ih
        simp only [splitSlash, hc, if_false, hsr, List.count_cons]
        simp only [List.length_cons] at ih ⊢
        have hbeq : (c == '/') = false := by simpa using hc
        simp [hbeq, ih]

/-- Configuration._is_forbidden_dir from deploy.py: split the canonical
path on slashes and reject exactly when the result has two fields whose
first is empty.  The source applies os.path.realpath before splitting;
the argument here is the already canonical path (realpath is idempotent,
and the caller in Configuration.init passes a realpath result). -/
def is_forbidden_dir (p : Path) : Bool :=
  match splitSlash p with
  | [s0, _] => s0.isEmpty
  | _ => false

/-- Modelled from the wording of the specification, for comparison with
the source check: the canonical path denotes a direct child of the
filesystem root, a slash followed by a nonempty segment containing no
further slash. -/
def is_direct_child_of_root (p : Path) : Bool :=
  match p with
  | c :: s => c == '/' && (!s.isEmpty && decide ('/' ∉ s))
  | [] => false

theorem is_forbidden_dir_eq_root_or_child (p : Path) :
    is_forbidden_dir p = true ↔
      (is_direct_child_of_root p = true ∨ p = ['/']) := by
  cases p with
  | nil => simp [is_forbidden_dir, splitSlash, is_direct_child_of_root]
  | cons c rest =>
    by_cases hc : c = '/'
    · subst hc
      have hsp : splitSlash ('/' :: rest) = [] :: splitSlash rest := by
        simp [splitSlash]
      cases hsr : splitSlash rest with
      | nil => exact absurd hsr (splitSlash_ne_nil rest)
      | cons t ts =>
        cases ts with
        | nil =>
          have hcount : rest.count '/' = 0 := by
            have := length_splitSlash rest
            rw [hsr] at this
            simpa using this.symm
          have hnotin : '/' ∉ rest := List.count_eq_zero.mp hcount
          constructor
          · intro _
            cases rest with
            | nil => exact Or.inr rfl
            | cons r rs =>
              refine Or.inl ?_
              simp [is_direct_child_of_root, hnotin]
          · intro _
            simp [is_forbidden_dir, hsp, hsr]
        | cons t2 ts2 =>
          have hcount : rest.count '/' = ts2.length + 1 := by
            have := length_splitSlash rest
            rw [hsr] at this
            simp at this
            omega
          have hin : '/' ∈ rest := by
            have : rest.count '/' ≠ 0 := by omega
            exact List.count_pos_iff.mp (Nat.pos_of_ne_zero this)
          have hrest_ne : rest ≠ [] := by
            intro h0; rw [h0] at hin; simp at hin
          constructor
          · intro hf
            exfalso
            rw [is_forbidden_dir, hsp, hsr] at hf
            simp at hf
          · rintro (hd | hroot)
            · exfalso
              simp [is_direct_child_of_root, hin] at hd
            · exfalso
              have : rest = [] := by
                have := congrArg List.tail hroot
                simpa using this
              exact hrest_ne this
    · have hbad : is_forbidden_dir (c :: rest) = false := by
        cases hsr : splitSlash rest with
        | nil => exact absurd hsr (splitSlash_ne_nil rest)
        | cons t ts =>
          cases ts with
          | nil => simp [is_forbidden_dir, splitSlash, hc, hsr]
          | cons t2 ts2 =>
            cases ts2 with
            | nil => simp [is_forbidden_dir, splitSlash, hc, hsr]
            | cons t3 ts3 => simp [is_forbidden_dir, splitSlash, hc, hsr]
      rw [hbad]
      constructor
      · intro h0; simp at h0
      · rintro (hd | hroot)
        · exfalso
          simp [is_direct_child_of_root] at hd
          exact hc hd.1
        · exfalso
          have : c = '/' := by
            have := congrArg List.head? hroot
            simpa using this
          exact hc this

/-- Configuration._is_abs_path on the POSIX branch taken everywhere the
script is supported (platform.system() different from Windows): the path
starts with a slash. -/
def is_abs_path (s : Path) : Bool :=
  match s with
  | c :: _ => c == '/'
  | [] => false

/-- The filesystem facts Configuration.init consults: canonicalization
(os.path.realpath) and directory existence (os.path.isdir). -/
structure PathEnv where
  realpath : Path → Path
  isdir : Path → Bool

/-- One iteration of the validation loop of Configuration.init for one of
the four required directory keys: canonicalize the configured value, then
in order the forbidden-directory check, the absolute-path check and the
existence check, each raising its own ConfigError.  Note that all three
checks receive the canonicalized path, not the original input. -/
def checkKey (env : PathEnv) (key : String) (value : Path) : Except PyError Unit :=
  if is_forbidden_dir (env.realpath value) then
    .error (.configError (.forbiddenValue key (env.realpath value)))
  else if !is_abs_path (env.realpath value) then
    .error (.configError (.mustBeAbsolute key))
  else if !env.isdir (env.realpath value) then
    .error (.configError (.doesNotExist key (env.realpath value)))
  else
    .ok ()

/-- The four required directory values of the configuration document, in
the order Configuration.init iterates over them. -/
structure ConfigDoc where
  appConfigDir : Path
  workingDir : Path
  archiveDir : Path
  appDir : Path

/-- The validation loop of Configuration.init over the four required
directory keys (the optional git-URL reachability check is a network
effect outside this model and is skipped, as with skip_remote_checks). -/
def configInit (env : PathEnv) (doc : ConfigDoc) : Except PyError Unit :=
  match checkKey env "appConfigDir" doc.appConfigDir with
  | .error e => .error e
  | .ok _ =>
    match checkKey env "workingDir" doc.workingDir with
    | .error e => .error e
    | .ok _ =>
      match checkKey env "archiveDir" doc.archiveDir with
      | .error e => .error e
      | .ok _ => checkKey env "appDir" doc.appDir

/-- C7 counterexample: a key whose canonical path is the filesystem root
itself is rejected by the forbidden-directory check even though the root
is not a direct child of the root, so the claimed exactly-when fails. -/
theorem forbidden_check_rejects_root_cx :
    checkKey ⟨fun v => v, fun _ => true⟩ "appDir" ['/'] =
      .error (.configError (.forbiddenValue "appDir" ['/'])) ∧
    is_direct_child_of_root ['/'] = false :=
  ⟨by rfl, by rfl⟩

/-- C7 as amended: for every environment, key and configured value, the
per-key validation rejects with the forbidden-value ConfigError exactly
when the canonical form of the value is the filesystem root itself or a
direct child of the root; every canonically deeper path passes the
forbidden-root check (it may still fail the later existence check). -/
theorem forbidden_check_exact (env : PathEnv) (key : String) (value : Path) :
    checkKey env key value =
        .error (.configError (.forbiddenValue key (env.realpath value))) ↔
      (is_direct_child_of_root (env.realpath value) = true ∨
        env.realpath value = ['/']) := by
  rw [← is_forbidden_dir_eq_root_or_child]
  constructor
  · intro hck
    by_contra hnf
    have hnf' : is_forbidden_dir (env.realpath value) = false := by
      simpa using hnf
    rw [checkKey, hnf'] at hck
    simp only [Bool.false_eq_true, if_false] at hck
    split_ifs at hck <;> simp_all
  · intro hf
    rw [checkKey, hf]
    simp

/-- C8 as evaluated on the failing input: a configuration document whose
workingDir is the relative path deployment/working is accepted by the
validation loop whenever its canonical (cwd-resolved) form exists and is
deep enough, because the absolute-path check is applied to the canonical
form and a realpath result always starts with a slash. -/
theorem relative_workingDir_accepted :
    configInit
      ⟨fun v => if is_abs_path v then v else ("/home/user/".data ++ v), fun _ => true⟩
      ⟨"/opt/conf".data, "deployment/working".data,
        "/opt/archive".data, "/opt/app".data⟩ = .ok () ∧
    is_abs_path "deployment/working".data = false :=
  ⟨by rfl, by rfl⟩

/-- The message of each ConfigError of Configuration.init, as formatted
by its three raise statements. -/
def render_config_error : ConfigErrorKind → String
  | .forbiddenValue key p => key ++ " cannot be set to forbidden value " ++ String.mk p
  | .mustBeAbsolute key => key ++ " path must be absolute"
  | .doesNotExist key p => "Path " ++ String.mk p ++ " (" ++ key ++ ") does not exist."

/-- The string Python prints for each error value via percent-s. -/
def describe_error : PyError → String
  | .configError k => render_config_error k
  | .shellCommandError m => m
  | .inputError m => m
  | .invalidatedArchive m => m
  | .attributeError m => m
  | .osError p => "[Errno 17] File exists: " ++ p
  | .ioError p => "[Errno 2] No such file or directory: " ++ p

/-- The top level of deploy.py: the root-user guard (the only sys.exit in
the script), then the try block whose two except clauses print the error
description and fall through; the first component is the error text
printed, if any, and the second the process exit status.  Neither except
clause calls sys.exit, so the handlers return normally and the process
ends with status zero. -/
def script_main (uid : Nat) (body : Except PyError Unit) : Option String × Nat :=
  if uid = 0 then
    (some "Please do not run the script as root", 1)
  else
    match body with
    | .ok _ => (none, 0)
    | .error (.configError k) =>
      (some ("Configuration error: " ++ render_config_error k), 0)
    | .error e => (some ("ERROR: " ++ describe_error e), 0)

/-- C3 counterexample: an invocation raising a ConfigError terminates
with exit status zero, equal to the status of a successful invocation, so
the exit status does not distinguish failure from success. -/
theorem error_exit_status_zero_cx :
    (script_main 1000 (.error (.configError (.mustBeAbsolute "appDir")))).2 = 0 ∧
    (script_main 1000 (.ok ())).2 = 0 :=
  ⟨rfl, rfl⟩

/-- C3 as amended: for every non-root invocation in which an error is
raised, the error is described to the operator, but the process then
terminates with exit status zero, the same status as a successful
invocation; the exit status therefore cannot distinguish failures (only
the run-as-root guard exits nonzero). -/
theorem errors_described_but_exit_zero (uid : Nat) (e : PyError) (h : uid ≠ 0) :
    (script_main uid (.error e)).1.isSome = true ∧
    (script_main uid (.error e)).2 = 0 ∧
    (script_main uid (.error e)).2 = (script_main uid (.ok ())).2 := by
  unfold script_main
  rw [if_neg h]
  cases e <;> simp [h]

/-- Concrete instance: an InputError run ends with status zero and its
description printed, matching the status of a successful run. -/
theorem errors_described_but_exit_zero_witness :
    (script_main 1000 (.error (.inputError "boom"))).1.isSome = true ∧
    (script_main 1000 (.error (.inputError "boom"))).2 = 0 ∧
    (script_main 1000 (.error (.inputError "boom"))).2 =
      (script_main 1000 (.ok ())).2 :=
  errors_described_but_exit_zero 1000 (.inputError "boom") (by decide)

/-- The KONTEXT_CONF_FILES constant of Configuration. -/
def KONTEXT_CONF_FILES : List String :=
  ["beatconfig.py", "celeryconfig.py", "config.xml", "corpora.xml",
    "gunicorn-conf.py", "main-menu.json", "tagsets.xml"]

/-- The alias substitution of the kontext_conf_files list comprehension:
an aliased name is replaced by its alias, any other name kept. -/
def apply_alias (aliases : List (String × String)) (k : String) : String :=
  match aliases.lookup k with
  | some v => v
  | none => k

/-- Configuration.kontext_conf_files: the standard file tuple extended
with the custom entries, with the alias mapping applied to every element
of the concatenation. -/
def kontext_conf_files (aliases : List (String × String)) (custom : List String) :
    List String :=
  (KONTEXT_CONF_FILES ++ custom).map (apply_alias aliases)

/-- C9 counterexample: with alias tagsets.xml to tag.xml and the extras
list containing tagsets.xml, the derived list substitutes the extra as
well, so it differs from the claimed standard-substituted list followed by
the extras unchanged. -/
theorem kontext_conf_files_alias_hits_extras_cx :
    kontext_conf_files [("tagsets.xml", "tag.xml")] ["tagsets.xml"] ≠
      KONTEXT_CONF_FILES.map (apply_alias [("tagsets.xml", "tag.xml")]) ++
        ["tagsets.xml"] := by
  decide

/-- C9 as amended: alias substitution applies to the whole concatenation
of the standard list and the extras; when no extra name is an alias key
the result is the alias-substituted standard list followed by the extras
in their given order, duplicates and order preserved, and with the
tagsets.xml alias the derived list contains tag.xml and not
tagsets.xml. -/
theorem kontext_conf_files_characterization (aliases : List (String × String))
    (custom : List String) (h : ∀ c ∈ custom, aliases.lookup c = none) :
    kontext_conf_files aliases custom =
      KONTEXT_CONF_FILES.map (apply_alias aliases) ++ custom ∧
    "tag.xml" ∈ kontext_conf_files [("tagsets.xml", "tag.xml")] [] ∧
    "tagsets.xml" ∉ kontext_conf_files [("tagsets.xml", "tag.xml")] [] := by
  refine ⟨?_, by decide, by decide⟩
  unfold kontext_conf_files
  rw [List.map_append]
  congr 1
  have hmap : ∀ l : List String, (∀ c ∈ l, aliases.lookup c = none) →
      l.map (apply_alias aliases) = l := by
    intro l hl
    induction l with
    | nil => rfl
    | cons a t iht =>
      have ha : aliases.lookup a = none := hl a (by simp)
      simp only [List.map_cons]
      rw [iht (fun x hx => hl x (by simp [hx]))]
      simp [apply_alias, ha]
  exact hmap custom h

/-- Concrete instance of the amended derived-list characterization with
one unaliased extra. -/
theorem kontext_conf_files_characterization_witness :
    kontext_conf_files [("tagsets.xml", "tag.xml")] ["custom-menu.json"] =
      KONTEXT_CONF_FILES.map (apply_alias [("tagsets.xml", "tag.xml")]) ++
        ["custom-menu.json"] ∧
    "tag.xml" ∈ kontext_conf_files [("tagsets.xml", "tag.xml")] [] ∧
    "tagsets.xml" ∉ kontext_conf_files [("tagsets.xml", "tag.xml")] [] :=
  kontext_conf_files_characterization [("tagsets.xml", "tag.xml")]
    ["custom-menu.json"] (by decide)
